import Mathlib

/-!
Shallow embedding of the work-item intelligence agent's core:
the rule-based classifier (`classificationService.ts`) and the sprint-scoped
state store (`stateManagementService.ts`), together with theorems settling the
specification claims.

Modelling conventions:
* JS strings are Lean `String`; `String.prototype.toLowerCase` is modelled by
  per-character `Char.toLower` (all classifier keywords are ASCII);
  `String.prototype.includes` is substring containment (`containsSub`).
* JS numbers are `ℚ` where fractional values occur (confidence), `Nat` for
  ids and counts; `Date` values are modelled as millisecond timestamps (`Nat`),
  supplied explicitly as a `now` argument wherever the source calls
  `new Date()`.
* A JS `Map` is an insertion-ordered association list; `Map.set` updates an
  existing key in place and appends a fresh key (`mapSet`); `Map.values()` is
  the value projection in list order.
-/

namespace Agents

/-- Boolean test that the first character list is a prefix of the second. -/
def isPrefixOfList : List Char → List Char → Bool
  | [], _ => true
  | _ :: _, [] => false
  | a :: as, b :: bs => a == b && isPrefixOfList as bs

/-- Boolean test that `needle` occurs as a contiguous sublist of `hay`. -/
def containsSub (needle : List Char) : List Char → Bool
  | [] => isPrefixOfList needle []
  | b :: bs => isPrefixOfList needle (b :: bs) || containsSub needle bs

/-- Model of `String.prototype.toLowerCase` (ASCII-faithful). -/
def lowerStr (s : String) : String := String.mk (s.data.map Char.toLower)

/-- JS whitespace test restricted to the ASCII whitespace that can occur in
the classifier's reasoning fragments. -/
def wsChar (c : Char) : Bool := c == ' ' || c == '\t' || c == '\n' || c == '\r'

/-- Model of `String.prototype.trim`: strip whitespace from both ends. -/
def trimStr (s : String) : String :=
  String.mk (((s.data.dropWhile wsChar).reverse.dropWhile wsChar).reverse)

/-- Model of `s.includes(sub)` from JS: substring containment. -/
def strIncludes (s sub : String) : Bool := containsSub sub.toList s.toList

/-- `WorkItemType` string enum from `types.ts`. -/
inductive WorkItemType where
  | Bug | Feature | Task | UserStory | Epic
  deriving DecidableEq, Repr

/-- `Priority` numeric enum from `types.ts`. -/
inductive Priority where
  | Critical | High | Medium | Low
  deriving DecidableEq, Repr

/-- The numeral carried by each `Priority` member (Critical = 1 … Low = 4). -/
def Priority.val : Priority → Nat
  | .Critical => 1
  | .High => 2
  | .Medium => 3
  | .Low => 4

/-- `WorkItem` interface from `types.ts`. Optional fields are `Option`s. -/
structure WorkItem where
  id : Nat
  title : String
  type : WorkItemType
  state : String
  assignedTo : Option String := none
  description : Option String := none
  tags : Option (List String) := none
  priority : Option Priority := none
  sprint : Option String := none
  url : Option String := none
  deriving DecidableEq, Repr

/-- `ClassificationResult` interface from `types.ts`. -/
structure ClassificationResult where
  workItemId : Nat
  suggestedTags : List String
  suggestedPriority : Priority
  confidence : ℚ
  reasoning : String
  deriving DecidableEq, Repr

/-- The lowercase haystack `text` built in `classifyWorkItem`:
lowercased title, a space, lowercased description (defaulting to empty). -/
def haystack (w : WorkItem) : String :=
  lowerStr w.title ++ " " ++ lowerStr (w.description.getD "")

/-- The Critical-tier condition of `classifyWorkItem` (JS `&&` binds tighter
than `||`, so the Bug-and-blocker clause is the last disjunct). -/
def criticalCond (w : WorkItem) : Bool :=
  strIncludes (haystack w) "critical" ||
  strIncludes (haystack w) "production down" ||
  strIncludes (haystack w) "security" ||
  strIncludes (haystack w) "data loss" ||
  (w.type == WorkItemType.Bug && strIncludes (haystack w) "blocker")

/-- The High-tier condition of `classifyWorkItem`. -/
def highCond (w : WorkItem) : Bool :=
  strIncludes (haystack w) "urgent" ||
  strIncludes (haystack w) "important" ||
  strIncludes (haystack w) "customer impact" ||
  strIncludes (haystack w) "high priority"

/-- The Low-tier condition of `classifyWorkItem`. -/
def lowCond (w : WorkItem) : Bool :=
  strIncludes (haystack w) "nice to have" ||
  strIncludes (haystack w) "low priority" ||
  strIncludes (haystack w) "enhancement" ||
  strIncludes (haystack w) "cosmetic"

/-- The priority-tier `if / else if` chain of `classifyWorkItem`: the tags it
pushes, the priority it selects, and the reasoning fragment it appends.
Note the Low branch pushes no tag. -/
def tierOf (w : WorkItem) : List String × Priority × String :=
  if criticalCond w then
    (["Critical"], Priority.Critical, "Critical priority due to severity keywords. ")
  else if highCond w then
    (["HighPriority"], Priority.High, "High priority due to urgency indicators. ")
  else if lowCond w then
    ([], Priority.Low, "Low priority - non-critical enhancement. ")
  else
    ([], Priority.Medium, "")

/-- UI technical-area rule of `classifyWorkItem`. -/
def uiTag (text : String) : List String × String :=
  if strIncludes text "ui" || strIncludes text "frontend" || strIncludes text "interface" then
    (["UI"], "UI component identified. ")
  else ([], "")

/-- Backend technical-area rule of `classifyWorkItem`. -/
def backendTag (text : String) : List String × String :=
  if strIncludes text "backend" || strIncludes text "api" || strIncludes text "server" then
    (["Backend"], "Backend component identified. ")
  else ([], "")

/-- Database technical-area rule of `classifyWorkItem`. -/
def databaseTag (text : String) : List String × String :=
  if strIncludes text "database" || strIncludes text "sql" || strIncludes text "data" then
    (["Database"], "Database component identified. ")
  else ([], "")

/-- Performance technical-area rule of `classifyWorkItem`. -/
def performanceTag (text : String) : List String × String :=
  if strIncludes text "performance" || strIncludes text "slow" || strIncludes text "optimization" then
    (["Performance"], "Performance concern identified. ")
  else ([], "")

/-- Security technical-area rule of `classifyWorkItem`. -/
def securityTag (text : String) : List String × String :=
  if strIncludes text "security" || strIncludes text "authentication" || strIncludes text "authorization" then
    (["Security"], "Security aspect identified. ")
  else ([], "")

/-- Testing technical-area rule of `classifyWorkItem`. -/
def testingTag (text : String) : List String × String :=
  if strIncludes text "test" || strIncludes text "testing" || strIncludes text "qa" then
    (["Testing"], "Testing related. ")
  else ([], "")

/-- Documentation technical-area rule of `classifyWorkItem`. -/
def docsTag (text : String) : List String × String :=
  if strIncludes text "documentation" || strIncludes text "docs" || strIncludes text "readme" then
    (["Documentation"], "Documentation work. ")
  else ([], "")

/-- All seven technical-area rules in source order: concatenated tag pushes
and concatenated reasoning fragments. -/
def areaTags (text : String) : List String × String :=
  let t1 := uiTag text
  let t2 := backendTag text
  let t3 := databaseTag text
  let t4 := performanceTag text
  let t5 := securityTag text
  let t6 := testingTag text
  let t7 := docsTag text
  (t1.1 ++ t2.1 ++ t3.1 ++ t4.1 ++ t5.1 ++ t6.1 ++ t7.1,
   t1.2 ++ t2.2 ++ t3.2 ++ t4.2 ++ t5.2 ++ t6.2 ++ t7.2)

/-- Work-item-type tag rule (`Bug` / `Feature` / `Epic`; no reasoning). -/
def typeTags : WorkItemType → List String
  | .Bug => ["Bug"]
  | .Feature => ["Feature"]
  | .Epic => ["Epic"]
  | _ => []

/-- State-based tag rule: lowercased state equal to "new". -/
def stateTag (state : String) : List String × String :=
  if lowerStr state = "new" then (["NeedsReview"], "New work item needs review. ")
  else ([], "")

/-- `Math.min(0.95, 0.6 + suggestedTags.length * 0.1)` from the source,
written as an explicit comparison so it evaluates by kernel reduction. -/
def confidenceOf (n : Nat) : ℚ :=
  if (95 / 100 : ℚ) ≤ 6 / 10 + (n : ℚ) * (1 / 10) then 95 / 100
  else 6 / 10 + (n : ℚ) * (1 / 10)

/-- `ClassificationService.classifyWorkItem`: tags accumulate in source push
order (priority tier, technical areas, type, state); reasoning concatenates
the fragments in the same order; empty trimmed reasoning falls back to the
literal default. -/
def classifyWorkItem (workItem : WorkItem) : ClassificationResult :=
  let text := haystack workItem
  let tier := tierOf workItem
  let area := areaTags text
  let stTag := stateTag workItem.state
  let suggestedTags := tier.1 ++ area.1 ++ typeTags workItem.type ++ stTag.1
  let reasoning := tier.2.2 ++ area.2 ++ stTag.2
  { workItemId := workItem.id
    suggestedTags := suggestedTags
    suggestedPriority := tier.2.1
    confidence := confidenceOf suggestedTags.length
    reasoning :=
      if trimStr reasoning = "" then "Standard classification applied." else trimStr reasoning }

/-! ## Sprint store (`stateManagementService.ts`) -/

/-- JS `Map.prototype.set` on an insertion-ordered association list: an
existing key is updated in place, a fresh key is appended. -/
def mapSet {κ ν : Type} [DecidableEq κ] : List (κ × ν) → κ → ν → List (κ × ν)
  | [], k, v => [(k, v)]
  | (k', v') :: t, k, v => if k' = k then (k, v) :: t else (k', v') :: mapSet t k v

/-- JS `Map.prototype.get`. -/
def mapGet {κ ν : Type} [DecidableEq κ] : List (κ × ν) → κ → Option ν
  | [], _ => none
  | (k', v') :: t, k => if k' = k then some v' else mapGet t k

/-- `SprintState` interface from `types.ts`; `Date` values are millisecond
timestamps. -/
structure SprintState where
  sprintName : String
  workItems : List (Nat × WorkItem)
  lastSyncTime : Nat
  classifications : List (Nat × ClassificationResult)
  deriving DecidableEq, Repr

/-- The `StateManagementService` class: its private `sprints` map. -/
structure StateManagementService where
  sprints : List (String × SprintState)
  deriving DecidableEq, Repr

/-- A freshly constructed `StateManagementService` (empty map). -/
def emptyService : StateManagementService := ⟨[]⟩

/-- `getOrCreateSprintState`: return the existing state, or register and
return an empty one stamped with the current time. -/
def getOrCreateSprintState (svc : StateManagementService) (sprintName : String)
    (now : Nat) : StateManagementService × SprintState :=
  match mapGet svc.sprints sprintName with
  | some st => (svc, st)
  | none =>
    let st : SprintState := ⟨sprintName, [], now, []⟩
    (⟨mapSet svc.sprints sprintName st⟩, st)

/-- The `workItems.forEach(wi => state.workItems.set(wi.id, wi))` loop. -/
def putItems (m : List (Nat × WorkItem)) (workItems : List WorkItem) :
    List (Nat × WorkItem) :=
  workItems.foldl (fun acc wi => mapSet acc wi.id wi) m

/-- The `classifications.forEach(c => state.classifications.set(c.workItemId, c))`
loop. -/
def putClassifications (m : List (Nat × ClassificationResult))
    (classifications : List ClassificationResult) : List (Nat × ClassificationResult) :=
  classifications.foldl (fun acc c => mapSet acc c.workItemId c) m

/-- `StateManagementService.updateWorkItems`: upsert every item by id, then
unconditionally stamp `lastSyncTime` with the call time. -/
def updateWorkItems (svc : StateManagementService) (sprintName : String)
    (workItems : List WorkItem) (now : Nat) : StateManagementService :=
  let p := getOrCreateSprintState svc sprintName now
  let st := p.2
  let st' := { st with workItems := putItems st.workItems workItems, lastSyncTime := now }
  ⟨mapSet p.1.sprints sprintName st'⟩

/-- `StateManagementService.storeClassifications`: upsert every result keyed
by `workItemId`; `lastSyncTime` is not touched (creation aside). -/
def storeClassifications (svc : StateManagementService) (sprintName : String)
    (classifications : List ClassificationResult) (now : Nat) : StateManagementService :=
  let p := getOrCreateSprintState svc sprintName now
  let st := p.2
  let st' := { st with classifications := putClassifications st.classifications classifications }
  ⟨mapSet p.1.sprints sprintName st'⟩

/-- `StateManagementService.getWorkItems`: values of the sprint's work-item
map, empty when the sprint is unknown; a pure read, never creating. -/
def getWorkItems (svc : StateManagementService) (sprintName : String) : List WorkItem :=
  match mapGet svc.sprints sprintName with
  | none => []
  | some st => st.workItems.map (·.2)

/-- `StateManagementService.getClassifications`: same shape as `getWorkItems`. -/
def getClassifications (svc : StateManagementService) (sprintName : String) :
    List ClassificationResult :=
  match mapGet svc.sprints sprintName with
  | none => []
  | some st => st.classifications.map (·.2)

/-- `StateManagementService.getAllSprints`: keys in insertion order. -/
def getAllSprints (svc : StateManagementService) : List String :=
  svc.sprints.map (·.1)

/-- The record returned by `getSprintStats`. -/
structure SprintStats where
  sprintName : String
  totalWorkItems : Nat
  totalClassifications : Nat
  lastSyncTime : Nat
  critical : Nat
  high : Nat
  medium : Nat
  low : Nat
  deriving DecidableEq, Repr

/-- `StateManagementService.getSprintStats`: `null` (here `none`) for an
unknown sprint; otherwise counts plus a priority breakdown computed over
stored classification results by comparing the priority numeral. -/
def getSprintStats (svc : StateManagementService) (sprintName : String) :
    Option SprintStats :=
  match mapGet svc.sprints sprintName with
  | none => none
  | some st =>
    let classifications := st.classifications.map (·.2)
    some { sprintName := sprintName
           totalWorkItems := st.workItems.length
           totalClassifications := st.classifications.length
           lastSyncTime := st.lastSyncTime
           critical := (classifications.filter (fun c => c.suggestedPriority.val == 1)).length
           high := (classifications.filter (fun c => c.suggestedPriority.val == 2)).length
           medium := (classifications.filter (fun c => c.suggestedPriority.val == 3)).length
           low := (classifications.filter (fun c => c.suggestedPriority.val == 4)).length }

/-! ## Serialization (`exportState` / `importState`)

`exportState` builds a JS document and `JSON.stringify`s it; `importState`
`JSON.parse`s its input and rebuilds the maps.  `JSON.parse ∘ JSON.stringify`
is the identity on the documents produced here (no `undefined` members:
absent optional fields are dropped by `stringify` and read back as absent),
so the model works with the parsed document directly: `importState` receives
`some document` for a string that parses, `none` for one that does not.
A `Date` round-trips through its serialized form (`toISOString` then the
`Date` constructor) losslessly at millisecond precision, so it is modelled
as its millisecond timestamp. -/

/-- Parsed JSON documents. -/
inductive Json where
  | null
  | bool (b : Bool)
  | num (q : ℚ)
  | str (s : String)
  | arr (elems : List Json)
  | obj (fields : List (String × Json))

/-- JS property access `j[key]`: `none` models `undefined` (and the
`TypeError` of accessing a member on a non-object, which the callers below
surface as a failure). -/
def jLookup (j : Json) (key : String) : Option Json :=
  match j with
  | .obj fields => mapGet fields key
  | _ => none

/-- The string value of each `WorkItemType` enum member. -/
def WorkItemType.jsName : WorkItemType → String
  | .Bug => "Bug"
  | .Feature => "Feature"
  | .Task => "Task"
  | .UserStory => "User Story"
  | .Epic => "Epic"

/-- Inverse of `WorkItemType.jsName`. -/
def workItemTypeOfName (s : String) : Option WorkItemType :=
  if s = "Bug" then some .Bug
  else if s = "Feature" then some .Feature
  else if s = "Task" then some .Task
  else if s = "User Story" then some .UserStory
  else if s = "Epic" then some .Epic
  else none

/-- Inverse of `Priority.val`. -/
def priorityOfVal (q : ℚ) : Option Priority :=
  if q = 1 then some .Critical
  else if q = 2 then some .High
  else if q = 3 then some .Medium
  else if q = 4 then some .Low
  else none

/-- Read a JSON value back as a natural number. -/
def asNat (j : Json) : Option Nat :=
  match j with
  | .num q => if q.den = 1 ∧ 0 ≤ q.num then some q.num.toNat else none
  | _ => none

/-- Read a JSON value back as a string. -/
def asStr (j : Json) : Option String :=
  match j with
  | .str s => some s
  | _ => none

/-- Read a JSON value back as a rational. -/
def asRat (j : Json) : Option ℚ :=
  match j with
  | .num q => some q
  | _ => none

/-- Read every element of a JSON array as a string, failing on the first
non-string. -/
def strsOf : List Json → Option (List String)
  | [] => some []
  | j :: rest => do
    let s ← asStr j
    let t ← strsOf rest
    pure (s :: t)

/-- Read a JSON array of strings. -/
def asStrList (j : Json) : Option (List String) :=
  match j with
  | .arr elems => strsOf elems
  | _ => none

/-- Serialize one optional object member: `JSON.stringify` drops fields whose
value is `undefined`, so an absent option contributes no entry. -/
def encodeOptField {α : Type} (key : String) (enc : α → Json) : Option α → List (String × Json)
  | none => []
  | some a => [(key, enc a)]

/-- Read back an optional string member: an absent key is an absent field. -/
def decodeOptStr : Option Json → Option (Option String)
  | none => some none
  | some (.str s) => some (some s)
  | some _ => none

/-- Read back the optional `tags` member. -/
def decodeOptTags : Option Json → Option (Option (List String))
  | none => some none
  | some j => (asStrList j).map some

/-- Read back the optional `priority` member. -/
def decodeOptPriority : Option Json → Option (Option Priority)
  | none => some none
  | some j => (asRat j >>= priorityOfVal).map some

/-- The JSON image of a `WorkItem` under `JSON.stringify` (declared member
order; absent optional members dropped). -/
def encodeWorkItem (w : WorkItem) : Json :=
  .obj ([("id", .num w.id), ("title", .str w.title),
         ("type", .str w.type.jsName), ("state", .str w.state)]
    ++ encodeOptField "assignedTo" Json.str w.assignedTo
    ++ encodeOptField "description" Json.str w.description
    ++ encodeOptField "tags" (fun l => .arr (l.map Json.str)) w.tags
    ++ encodeOptField "priority" (fun p => .num p.val) w.priority
    ++ encodeOptField "sprint" Json.str w.sprint
    ++ encodeOptField "url" Json.str w.url)

/-- Rebuild a `WorkItem` from its JSON image.  The source stores whatever the
parse produced without validating members; the typed model instead rejects
shapes that denote no representable `WorkItem`. -/
def decodeWorkItem (j : Json) : Option WorkItem := do
  let id ← jLookup j "id" >>= asNat
  let title ← jLookup j "title" >>= asStr
  let type ← jLookup j "type" >>= asStr >>= workItemTypeOfName
  let state ← jLookup j "state" >>= asStr
  let assignedTo ← decodeOptStr (jLookup j "assignedTo")
  let description ← decodeOptStr (jLookup j "description")
  let tags ← decodeOptTags (jLookup j "tags")
  let priority ← decodeOptPriority (jLookup j "priority")
  let sprint ← decodeOptStr (jLookup j "sprint")
  let url ← decodeOptStr (jLookup j "url")
  pure { id := id, title := title, type := type, state := state,
         assignedTo := assignedTo, description := description, tags := tags,
         priority := priority, sprint := sprint, url := url }

/-- The JSON image of a `ClassificationResult`. -/
def encodeClassification (c : ClassificationResult) : Json :=
  .obj [("workItemId", .num c.workItemId),
        ("suggestedTags", .arr (c.suggestedTags.map Json.str)),
        ("suggestedPriority", .num c.suggestedPriority.val),
        ("confidence", .num c.confidence),
        ("reasoning", .str c.reasoning)]

/-- Rebuild a `ClassificationResult` from its JSON image. -/
def decodeClassification (j : Json) : Option ClassificationResult := do
  let workItemId ← jLookup j "workItemId" >>= asNat
  let suggestedTags ← jLookup j "suggestedTags" >>= asStrList
  let suggestedPriority ← jLookup j "suggestedPriority" >>= asRat >>= priorityOfVal
  let confidence ← jLookup j "confidence" >>= asRat
  let reasoning ← jLookup j "reasoning" >>= asStr
  pure { workItemId := workItemId, suggestedTags := suggestedTags,
         suggestedPriority := suggestedPriority, confidence := confidence,
         reasoning := reasoning }

/-- One decoded `[key, value]` entry of a serialized `Map`. -/
def decodeEntry {α : Type} (dec : Json → Option α) : Json → Option (Nat × α)
  | .arr [k, v] => do
    let key ← asNat k
    let val ← dec v
    pure (key, val)
  | _ => none

/-- Decode a list of `[key, value]` entries, failing on the first bad one. -/
def entriesOf {α : Type} (dec : Json → Option α) : List Json → Option (List (Nat × α))
  | [] => some []
  | j :: rest => do
    let e ← decodeEntry dec j
    let t ← entriesOf dec rest
    pure (e :: t)

/-- A serialized `Map`, i.e. a JSON array of `[key, value]` entries. -/
def decodeEntries {α : Type} (dec : Json → Option α) : Json → Option (List (Nat × α))
  | .arr xs => entriesOf dec xs
  | _ => none

/-- `new Map(entries)`: fold `set` over the entries, starting empty (so
duplicate keys collapse, last one winning). -/
def mapOfEntries {κ ν : Type} [DecidableEq κ] (entries : List (κ × ν)) : List (κ × ν) :=
  entries.foldl (fun m e => mapSet m e.1 e.2) []

/-- The JSON image of one exported sprint entry. -/
def encodeSprintEntry (e : String × SprintState) : Json :=
  .obj [("name", .str e.1),
        ("workItems", .arr (e.2.workItems.map fun p => .arr [.num p.1, encodeWorkItem p.2])),
        ("classifications",
          .arr (e.2.classifications.map fun p => .arr [.num p.1, encodeClassification p.2])),
        ("lastSyncTime", .num e.2.lastSyncTime)]

/-- `StateManagementService.exportState`: the document passed to
`JSON.stringify`. -/
def exportState (svc : StateManagementService) : Json :=
  .obj [("sprints", .arr (svc.sprints.map encodeSprintEntry))]

/-- Rebuild one `SprintState` from a parsed sprint entry, mirroring the
`importState` loop body.  `new Map(undefined)` yields an empty map, so an
absent entry list decodes to an empty map. -/
def decodeSprint (j : Json) : Option SprintState := do
  let name ← jLookup j "name" >>= asStr
  let wEntries ← match jLookup j "workItems" with
    | none => some []
    | some v => decodeEntries decodeWorkItem v
  let cEntries ← match jLookup j "classifications" with
    | none => some []
    | some v => decodeEntries decodeClassification v
  let lastSync ← jLookup j "lastSyncTime" >>= asNat
  pure { sprintName := name, workItems := mapOfEntries wEntries,
         lastSyncTime := lastSync, classifications := mapOfEntries cEntries }

/-- How a failed `importState` call surfaced. -/
inductive ImportError where
  | parseFailure
  | invalidSprints
  deriving DecidableEq, Repr

/-- The `data.sprints.forEach` loop of `importState`: each decoded sprint is
`set` under its name; a sprint entry that denotes no `SprintState` aborts
the loop (the JS exception), keeping whatever was already set. -/
def importSprintList (svc : StateManagementService) :
    List Json → StateManagementService × Option ImportError
  | [] => (svc, none)
  | j :: rest =>
    match decodeSprint j with
    | none => (svc, some .invalidSprints)
    | some st => importSprintList ⟨mapSet svc.sprints st.sprintName st⟩ rest

/-- `StateManagementService.importState`.  `none` input models a string
`JSON.parse` rejects: the exception fires before `this.sprints.clear()`, so
the store is untouched.  On any parsed document the store is cleared first;
only then is `data.sprints` read, so a missing or non-array `sprints`
member (`.forEach` raising `TypeError`) leaves the store empty. -/
def importState (svc : StateManagementService) (input : Option Json) :
    StateManagementService × Option ImportError :=
  match input with
  | none => (svc, some .parseFailure)
  | some data =>
    let cleared : StateManagementService := ⟨[]⟩
    match jLookup data "sprints" with
    | some (.arr sprintsArr) => importSprintList cleared sprintsArr
    | _ => (cleared, some .invalidSprints)

/-- Store well-formedness, an invariant of every reachable store: sprint keys
are distinct, each state records its own key as `sprintName`, and the inner
maps have distinct keys. -/
def WF (svc : StateManagementService) : Prop :=
  (svc.sprints.map (·.1)).Nodup ∧
  ∀ e ∈ svc.sprints, e.2.sprintName = e.1 ∧
    (e.2.workItems.map (·.1)).Nodup ∧ (e.2.classifications.map (·.1)).Nodup

instance (svc : StateManagementService) : Decidable (WF svc) := by
  unfold WF; exact inferInstance

/-! ## Concrete fixtures used to instantiate the theorems -/

/-- A Bug reporting a production outage, freshly created. -/
def wProdDown : WorkItem :=
  { id := 1, title := "Production down in region", type := WorkItemType.Bug, state := "New" }

/-- A task whose haystack matches only the High tier. -/
def wUrgentFix : WorkItem :=
  { id := 2, title := "urgent fix", type := WorkItemType.Task, state := "Active" }

/-- A task whose haystack matches only the Low tier. -/
def wEnhancement : WorkItem :=
  { id := 3, title := "enhancement", type := WorkItemType.Task, state := "Active" }

/-- A work item matching no rule at all. -/
def wPlain : WorkItem :=
  { id := 9, title := "x", type := WorkItemType.Task, state := "Active" }

/-- Feature with an assignee; agrees with `wApiUrl` on the four core fields. -/
def wApiAlice : WorkItem :=
  { id := 1, title := "Add api endpoint", type := WorkItemType.Feature, state := "New",
    assignedTo := some "alice" }

/-- Feature with a url; agrees with `wApiAlice` on the four core fields. -/
def wApiUrl : WorkItem :=
  { id := 2, title := "Add api endpoint", type := WorkItemType.Feature, state := "New",
    url := some "http://x" }

/-- Minimal work item with id 1. -/
def wTee1 : WorkItem := { id := 1, title := "t", type := WorkItemType.Task, state := "s" }

/-- Same core fields as `wTee1`, different id. -/
def wTee2 : WorkItem := { id := 2, title := "t", type := WorkItemType.Task, state := "s" }

/-- A second item with id 1, used to overwrite `wTee1` in a later sync. -/
def wOverwrite : WorkItem :=
  { id := 1, title := "updated", type := WorkItemType.Task, state := "Active" }

/-- A concrete classification result. -/
def cFix : ClassificationResult :=
  { workItemId := 2, suggestedTags := ["Bug"], suggestedPriority := Priority.Critical,
    confidence := 7 / 10, reasoning := "r" }

/-- A sprint state with empty maps. -/
def stFix : SprintState :=
  { sprintName := "S", workItems := [], lastSyncTime := 7, classifications := [] }

/-- A store holding exactly the sprint "S". -/
def svcFix : StateManagementService := ⟨[("S", stFix)]⟩

/-- A store holding exactly the sprint "A". -/
def svcA : StateManagementService := ⟨[("A", ⟨"A", [], 1, []⟩)]⟩

/-- A two-sprint store with both maps populated. -/
def svcTwo : StateManagementService :=
  ⟨[("S1", ⟨"S1", [(1, wProdDown)], 5, []⟩), ("S2", ⟨"S2", [], 6, [(2, cFix)]⟩)]⟩

/-- A parsed document whose `sprints` member is a number, not an array. -/
def badSprintsDoc : Json := Json.obj [("sprints", Json.num 3)]

/-! ## Association-list (JS `Map`) lemmas -/

theorem mapGet_mapSet_self {κ ν : Type} [DecidableEq κ] (m : List (κ × ν)) (k : κ) (v : ν) :
    mapGet (mapSet m k v) k = some v := by
  induction m with
  | nil => simp [mapSet, mapGet]
  | cons a t ih =>
    obtain ⟨k', v'⟩ := a
    by_cases h : k' = k <;> simp [mapSet, mapGet, h, ih]

theorem mapGet_mapSet_ne {κ ν : Type} [DecidableEq κ] (m : List (κ × ν)) (k k' : κ) (v : ν)
    (h : k' ≠ k) : mapGet (mapSet m k v) k' = mapGet m k' := by
  induction m with
  | nil => simp [mapSet, mapGet, Ne.symm h]
  | cons a t ih =>
    obtain ⟨k₀, v₀⟩ := a
    by_cases h₀ : k₀ = k
    · subst h₀; simp [mapSet, mapGet, Ne.symm h]
    · by_cases h₁ : k₀ = k' <;> simp [mapSet, mapGet, h₀, h₁, ih, h]

theorem mapSet_of_not_mem {κ ν : Type} [DecidableEq κ] (m : List (κ × ν)) (k : κ) (v : ν)
    (h : k ∉ m.map (·.1)) : mapSet m k v = m ++ [(k, v)] := by
  induction m with
  | nil => simp [mapSet]
  | cons a t ih =>
    obtain ⟨k₀, v₀⟩ := a
    simp only [List.map_cons, List.mem_cons] at h
    push_neg at h
    simp [mapSet, Ne.symm h.1, ih h.2]

theorem keys_mapSet_of_mem {κ ν : Type} [DecidableEq κ] (m : List (κ × ν)) (k : κ) (v : ν)
    (h : k ∈ m.map (·.1)) : (mapSet m k v).map (·.1) = m.map (·.1) := by
  induction m with
  | nil => simp at h
  | cons a t ih =>
    obtain ⟨k₀, v₀⟩ := a
    by_cases h₀ : k₀ = k
    · simp [mapSet, h₀]
    · simp only [List.map_cons, List.mem_cons] at h
      rcases h with h | h

      · exact absurd h.symm h₀
      · simp [mapSet, h₀, ih h]

theorem mem_keys_mapSet {κ ν : Type} [DecidableEq κ] (m : List (κ × ν)) (k k' : κ) (v : ν) :
    k' ∈ (mapSet m k v).map (·.1) ↔ k' ∈ m.map (·.1) ∨ k' = k := by
  induction m with
  | nil => simp [mapSet]
  | cons a t ih =>
    obtain ⟨k₀, v₀⟩ := a
    by_cases h₀ : k₀ = k
    · subst h₀; constructor
      · rintro h; simp [mapSet] at h; rcases h with h | h
        · exact Or.inr h
        · exact Or.inl (by simp [h])
      · rintro (h | h)
        · simp [mapSet] at h ⊢; tauto
        · simp [mapSet, h]
    · simp only [mapSet, if_neg h₀, List.map_cons, List.mem_cons, ih]
      tauto

theorem nodup_keys_mapSet {κ ν : Type} [DecidableEq κ] (m : List (κ × ν)) (k : κ) (v : ν)
    (h : (m.map (·.1)).Nodup) : ((mapSet m k v).map (·.1)).Nodup := by
  by_cases hm : k ∈ m.map (·.1)
  · rw [keys_mapSet_of_mem m k v hm]; exact h
  · rw [mapSet_of_not_mem m k v hm]
    simp only [List.map_append, List.map_cons, List.map_nil]
    exact List.Nodup.append h (List.nodup_singleton k) (by simpa using hm)

/-! ## Upsert-loop lemmas -/

theorem putItems_append (m : List (Nat × WorkItem)) (A B : List WorkItem) :
    putItems m (A ++ B) = putItems (putItems m A) B := by
  simp [putItems, List.foldl_append]

theorem mapGet_putItems_of_not_mem (items : List WorkItem) (m : List (Nat × WorkItem)) (k : Nat)
    (h : k ∉ items.map (·.id)) : mapGet (putItems m items) k = mapGet m k := by
  induction items generalizing m with
  | nil => simp [putItems]
  | cons wi t ih =>
    simp only [List.map_cons, List.mem_cons] at h
    push_neg at h
    show mapGet (putItems (mapSet m wi.id wi) t) k = mapGet m k
    rw [ih (mapSet m wi.id wi) h.2, mapGet_mapSet_ne m wi.id k wi h.1]

theorem mapGet_putItems_self (items : List WorkItem) (m : List (Nat × WorkItem))
    (hn : (items.map (·.id)).Nodup) (wi : WorkItem) (hw : wi ∈ items) :
    mapGet (putItems m items) wi.id = some wi := by
  induction items generalizing m with
  | nil => simp at hw
  | cons a t ih =>
    simp only [List.map_cons, List.nodup_cons] at hn
    rcases List.mem_cons.1 hw with h | h
    · subst h
      show mapGet (putItems (mapSet m wi.id wi) t) wi.id = some wi
      rw [mapGet_putItems_of_not_mem t (mapSet m wi.id wi) wi.id hn.1,
        mapGet_mapSet_self]
    · exact ih (mapSet m a.id a) hn.2 h

theorem mem_keys_putItems (items : List WorkItem) (m : List (Nat × WorkItem)) (k : Nat) :
    k ∈ (putItems m items).map (·.1) ↔ k ∈ m.map (·.1) ∨ k ∈ items.map (·.id) := by
  induction items generalizing m with
  | nil => simp [putItems]
  | cons wi t ih =>
    show k ∈ (putItems (mapSet m wi.id wi) t).map (·.1) ↔ _
    rw [ih (mapSet m wi.id wi), mem_keys_mapSet]
    simp only [List.map_cons, List.mem_cons]
    tauto

theorem nodup_keys_putItems (items : List WorkItem) (m : List (Nat × WorkItem))
    (h : (m.map (·.1)).Nodup) : ((putItems m items).map (·.1)).Nodup := by
  induction items generalizing m with
  | nil => exact h
  | cons wi t ih => exact ih (mapSet m wi.id wi) (nodup_keys_mapSet m wi.id wi h)

theorem length_putItems_nil (items : List WorkItem) :
    (putItems [] items).length = (items.map (·.id)).dedup.length := by
  have hkeys : ((putItems [] items).map (·.1)).Nodup :=
    nodup_keys_putItems items [] (by simp)
  have hmem : ∀ k, k ∈ (putItems [] items).map (·.1) ↔ k ∈ (items.map (·.id)).dedup := by
    intro k
    rw [mem_keys_putItems items [] k, List.mem_dedup]
    simp
  have hperm : List.Perm ((putItems [] items).map (·.1)) ((items.map (·.id)).dedup) :=
    (List.perm_ext_iff_of_nodup hkeys (List.nodup_dedup _)).2 hmem
  have hlen : (putItems [] items).length
      = ((putItems [] items).map (fun p : Nat × WorkItem => p.1)).length := by simp
  rw [hlen]
  exact hperm.length_eq

/-! ## `new Map(entries)` round-trip lemmas -/

theorem foldl_mapSet_disjoint {κ ν : Type} [DecidableEq κ] (t : List (κ × ν)) :
    ∀ acc : List (κ × ν), (t.map (·.1)).Nodup →
      (∀ k ∈ t.map (·.1), k ∉ acc.map (·.1)) →
      t.foldl (fun m e => mapSet m e.1 e.2) acc = acc ++ t := by
  induction t with
  | nil => simp
  | cons e rest ih =>
    intro acc hn hdisj
    obtain ⟨k, v⟩ := e
    simp only [List.map_cons, List.nodup_cons] at hn
    have hk : k ∉ acc.map (·.1) := hdisj k (by simp)
    show rest.foldl (fun m e => mapSet m e.1 e.2) (mapSet acc k v) = acc ++ (k, v) :: rest
    rw [mapSet_of_not_mem acc k v hk,
      ih (acc ++ [(k, v)]) hn.2 ?_]
    · simp
    · intro k' hk'
      simp only [List.map_append, List.mem_append, List.map_cons, List.map_nil,
        List.mem_singleton, not_or]
      exact ⟨fun hmem => hdisj k' (by simp [hk']) hmem,
        by rintro rfl; exact hn.1 hk'⟩

theorem mapOfEntries_eq_self {κ ν : Type} [DecidableEq κ] (l : List (κ × ν))
    (h : (l.map (·.1)).Nodup) : mapOfEntries l = l := by
  simpa [mapOfEntries] using foldl_mapSet_disjoint l [] h (by simp)

theorem mapGet_eq_none_of_not_mem {κ ν : Type} [DecidableEq κ] (m : List (κ × ν)) (k : κ)
    (h : k ∉ m.map (·.1)) : mapGet m k = none := by
  induction m with
  | nil => rfl
  | cons a t ih =>
    obtain ⟨k₀, v₀⟩ := a
    simp only [List.map_cons, List.mem_cons] at h
    push_neg at h
    simp [mapGet, Ne.symm h.1, ih h.2]

theorem mapSet_mapSet {κ ν : Type} [DecidableEq κ] (m : List (κ × ν)) (k : κ) (v v' : ν) :
    mapSet (mapSet m k v) k v' = mapSet m k v' := by
  induction m with
  | nil => simp [mapSet]
  | cons a t ih =>
    obtain ⟨k₀, v₀⟩ := a
    by_cases h : k₀ = k <;> simp [mapSet, h, ih]

/-! ## JSON round-trip lemmas -/

theorem asNat_natCast (n : Nat) : asNat (.num (n : ℚ)) = some n := by
  simp [asNat, Rat.den_natCast, Rat.num_natCast]

theorem workItemTypeOfName_jsName (t : WorkItemType) :
    workItemTypeOfName t.jsName = some t := by
  cases t <;> rfl

theorem priorityOfVal_val (p : Priority) : priorityOfVal ((p.val : Nat) : ℚ) = some p := by
  cases p <;> norm_num [priorityOfVal, Priority.val]

theorem strsOf_encode (l : List String) : strsOf (l.map Json.str) = some l := by
  induction l with
  | nil => rfl
  | cons s t ih => simp [strsOf, asStr, ih]

theorem asStrList_encode (l : List String) : asStrList (.arr (l.map Json.str)) = some l := by
  simp [asStrList, strsOf_encode]

theorem decodeWorkItem_encode (w : WorkItem) : decodeWorkItem (encodeWorkItem w) = some w := by
  obtain ⟨id, title, type, state, assignedTo, description, tags, priority, sprint, url⟩ := w
  cases assignedTo <;> cases description <;> cases tags <;> cases priority <;>
    cases sprint <;> cases url <;>
    simp [decodeWorkItem, encodeWorkItem, jLookup, mapGet, encodeOptField,
      asNat_natCast, asStr, workItemTypeOfName_jsName, priorityOfVal_val,
      decodeOptStr, decodeOptTags, decodeOptPriority, asStrList_encode, asRat]

theorem decodeClassification_encode (c : ClassificationResult) :
    decodeClassification (encodeClassification c) = some c := by
  obtain ⟨wid, tags, prio, conf, reasoning⟩ := c
  simp [decodeClassification, encodeClassification, jLookup, mapGet,
    asNat_natCast, asStr, asRat, asStrList_encode, priorityOfVal_val]

theorem decodeEntry_encode {α : Type} (dec : Json → Option α) (enc : α → Json)
    (hre : ∀ a, dec (enc a) = some a) (p : Nat × α) :
    decodeEntry dec (.arr [.num p.1, enc p.2]) = some p := by
  simp [decodeEntry, asNat_natCast, hre]

theorem entriesOf_encode {α : Type} (dec : Json → Option α) (enc : α → Json)
    (hre : ∀ a, dec (enc a) = some a) (l : List (Nat × α)) :
    entriesOf dec (l.map fun p => .arr [.num p.1, enc p.2]) = some l := by
  induction l with
  | nil => rfl
  | cons p t ih => simp [entriesOf, decodeEntry_encode dec enc hre, ih]

theorem decodeSprint_encode (e : String × SprintState)
    (hname : e.2.sprintName = e.1)
    (hw : (e.2.workItems.map (·.1)).Nodup)
    (hc : (e.2.classifications.map (·.1)).Nodup) :
    decodeSprint (encodeSprintEntry e) = some e.2 := by
  obtain ⟨name, st⟩ := e
  obtain ⟨sn, wis, last, cls⟩ := st
  simp only at hname hw hc
  subst hname
  simp [decodeSprint, encodeSprintEntry, jLookup, mapGet, asStr, asNat_natCast,
    decodeEntries, entriesOf_encode decodeWorkItem encodeWorkItem decodeWorkItem_encode,
    entriesOf_encode decodeClassification encodeClassification decodeClassification_encode,
    mapOfEntries_eq_self _ hw, mapOfEntries_eq_self _ hc]

theorem importSprintList_encode (l : List (String × SprintState)) :
    ∀ acc : List (String × SprintState),
      (∀ e ∈ l, e.2.sprintName = e.1 ∧ (e.2.workItems.map (·.1)).Nodup ∧
        (e.2.classifications.map (·.1)).Nodup) →
      (l.map (·.1)).Nodup →
      (∀ k ∈ l.map (·.1), k ∉ acc.map (·.1)) →
      importSprintList ⟨acc⟩ (l.map encodeSprintEntry) = (⟨acc ++ l⟩, none) := by
  induction l with
  | nil => intro acc _ _ _; simp [importSprintList]
  | cons e rest ih =>
    intro acc hall hnodup hdisj
    have he := hall e (by simp)
    have hdec := decodeSprint_encode e he.1 he.2.1 he.2.2
    show importSprintList ⟨acc⟩ (encodeSprintEntry e :: rest.map encodeSprintEntry) = _
    rw [importSprintList, hdec]
    simp only [List.map_cons, List.nodup_cons] at hnodup
    show importSprintList ⟨mapSet acc e.2.sprintName e.2⟩ (rest.map encodeSprintEntry) = _
    rw [he.1, mapSet_of_not_mem acc e.1 e.2 (hdisj e.1 (by simp))]
    rw [ih (acc ++ [(e.1, e.2)]) (fun x hx => hall x (by simp [hx])) hnodup.2 ?_]
    · simp
    · intro k hk
      simp only [List.map_append, List.mem_append, List.map_cons, List.map_nil,
        List.mem_singleton, not_or]
      refine ⟨fun hmem => hdisj k (by simp [hk]) hmem, ?_⟩
      rintro rfl
      exact hnodup.1 hk

theorem importState_exportState (svc target : StateManagementService) (h : WF svc) :
    importState target (some (exportState svc)) = (svc, none) := by
  obtain ⟨hkeys, hall⟩ := h
  have hbridge : importState target (some (exportState svc))
      = importSprintList ⟨[]⟩ (svc.sprints.map encodeSprintEntry) := rfl
  rw [hbridge, importSprintList_encode svc.sprints [] hall hkeys (by simp)]
  simp

/-! ## Classifier tag-provenance lemmas -/

theorem mem_uiTag (t x : String) (h : x ∈ (uiTag t).1) : x = "UI" := by
  unfold uiTag at h; split at h <;> simp_all

theorem mem_backendTag (t x : String) (h : x ∈ (backendTag t).1) : x = "Backend" := by
  unfold backendTag at h; split at h <;> simp_all

theorem mem_databaseTag (t x : String) (h : x ∈ (databaseTag t).1) : x = "Database" := by
  unfold databaseTag at h; split at h <;> simp_all

theorem mem_performanceTag (t x : String) (h : x ∈ (performanceTag t).1) : x = "Performance" := by
  unfold performanceTag at h; split at h <;> simp_all

theorem mem_securityTag (t x : String) (h : x ∈ (securityTag t).1) : x = "Security" := by
  unfold securityTag at h; split at h <;> simp_all

theorem mem_testingTag (t x : String) (h : x ∈ (testingTag t).1) : x = "Testing" := by
  unfold testingTag at h; split at h <;> simp_all

theorem mem_docsTag (t x : String) (h : x ∈ (docsTag t).1) : x = "Documentation" := by
  unfold docsTag at h; split at h <;> simp_all

theorem mem_areaTags (t x : String) (h : x ∈ (areaTags t).1) :
    x ∈ (["UI", "Backend", "Database", "Performance", "Security", "Testing",
      "Documentation"] : List String) := by
  simp only [areaTags, List.mem_append] at h
  rcases h with ((((((h | h) | h) | h) | h) | h) | h)
  · simp [mem_uiTag t x h]
  · simp [mem_backendTag t x h]
  · simp [mem_databaseTag t x h]
  · simp [mem_performanceTag t x h]
  · simp [mem_securityTag t x h]
  · simp [mem_testingTag t x h]
  · simp [mem_docsTag t x h]

theorem mem_typeTags (ty : WorkItemType) (x : String) (h : x ∈ typeTags ty) :
    x ∈ (["Bug", "Feature", "Epic"] : List String) := by
  cases ty <;> simp [typeTags] at h <;> simp [h]

theorem mem_stateTag (st x : String) (h : x ∈ (stateTag st).1) : x = "NeedsReview" := by
  unfold stateTag at h; split at h <;> simp_all

/-- A "Critical" or "HighPriority" tag can only have been pushed by the
priority tier: no other rule emits either string. -/
theorem priority_marker_mem_tier (v : WorkItem) (x : String)
    (hx : x = "Critical" ∨ x = "HighPriority")
    (hmem : x ∈ (tierOf v).1 ++ (areaTags (haystack v)).1 ++ typeTags v.type
      ++ (stateTag v.state).1) :
    x ∈ (tierOf v).1 := by
  simp only [List.mem_append] at hmem
  rcases hmem with ((h | h) | h) | h
  · exact h
  · have hin := mem_areaTags (haystack v) x h
    rcases hx with rfl | rfl <;> simp at hin
  · have hin := mem_typeTags v.type x h
    rcases hx with rfl | rfl <;> simp at hin
  · have hin := mem_stateTag v.state x h
    rcases hx with rfl | rfl <;> simp at hin

/-! ## Projection lemmas for `classifyWorkItem` -/

theorem classify_suggestedTags (w : WorkItem) :
    (classifyWorkItem w).suggestedTags
      = (tierOf w).1 ++ (areaTags (haystack w)).1 ++ typeTags w.type
        ++ (stateTag w.state).1 := rfl

theorem classify_suggestedPriority (w : WorkItem) :
    (classifyWorkItem w).suggestedPriority = (tierOf w).2.1 := rfl

theorem classify_confidence (w : WorkItem) :
    (classifyWorkItem w).confidence
      = confidenceOf (classifyWorkItem w).suggestedTags.length := rfl

theorem classify_workItemId (w : WorkItem) :
    (classifyWorkItem w).workItemId = w.id := rfl

theorem classify_reasoning (w : WorkItem) :
    (classifyWorkItem w).reasoning
      = (if trimStr ((tierOf w).2.2 ++ (areaTags (haystack w)).2 ++ (stateTag w.state).2) = ""
        then "Standard classification applied."
        else trimStr ((tierOf w).2.2 ++ (areaTags (haystack w)).2
          ++ (stateTag w.state).2)) := rfl

/-! ## Claim theorems: classifier -/

/-- C1: any work item whose lowercase haystack contains "critical",
"production down", "security" or "data loss" — or whose type is Bug while
the haystack contains "blocker" — is classified with suggestedPriority
Critical and carries the "Critical" tag; and the priority tiers being
first-match-wins, no result ever carries both "Critical" and
"HighPriority" in its suggested tags. -/
theorem classify_critical_and_tier_exclusive (w v : WorkItem)
    (h : strIncludes (haystack w) "critical" = true ∨
         strIncludes (haystack w) "production down" = true ∨
         strIncludes (haystack w) "security" = true ∨
         strIncludes (haystack w) "data loss" = true ∨
         (w.type = WorkItemType.Bug ∧ strIncludes (haystack w) "blocker" = true)) :
    (classifyWorkItem w).suggestedPriority = Priority.Critical ∧
    "Critical" ∈ (classifyWorkItem w).suggestedTags ∧
    ¬("Critical" ∈ (classifyWorkItem v).suggestedTags ∧
      "HighPriority" ∈ (classifyWorkItem v).suggestedTags) := by
  have hcond : criticalCond w = true := by
    simp only [criticalCond, Bool.or_eq_true, Bool.and_eq_true, beq_iff_eq]
    tauto
  have htier : tierOf w
      = (["Critical"], Priority.Critical, "Critical priority due to severity keywords. ") := by
    simp [tierOf, hcond]
  refine ⟨?_, ?_, ?_⟩
  · rw [classify_suggestedPriority, htier]
  · rw [classify_suggestedTags, htier]
    simp
  · rintro ⟨hC, hH⟩
    rw [classify_suggestedTags] at hC hH
    have hC' := priority_marker_mem_tier v "Critical" (Or.inl rfl) hC
    have hH' := priority_marker_mem_tier v "HighPriority" (Or.inr rfl) hH
    unfold tierOf at hC' hH'
    split_ifs at hC' hH' <;> simp_all

/-- C1 witness: "Production down" in the title of a Bug in state "New". -/
theorem classify_critical_and_tier_exclusive_witness :
    (classifyWorkItem wProdDown).suggestedPriority = Priority.Critical ∧
    "Critical" ∈ (classifyWorkItem wProdDown).suggestedTags ∧
    ¬("Critical" ∈ (classifyWorkItem wUrgentFix).suggestedTags ∧
      "HighPriority" ∈ (classifyWorkItem wUrgentFix).suggestedTags) :=
  classify_critical_and_tier_exclusive wProdDown wUrgentFix (Or.inr (Or.inl (by decide)))

/-- C2 counterexample: for the Low-keyword item "enhancement" (type Task,
state "Active") the code assigns suggestedPriority Low but appends NO
priority-tier tag — suggestedTags is empty and the confidence stays at the
zero-tag value 0.6 — refuting the claim that the Low tier appends a tag
counting toward the confidence computation. -/
theorem low_tier_adds_no_tag_cex :
    (classifyWorkItem wEnhancement).suggestedPriority = Priority.Low ∧
    (classifyWorkItem wEnhancement).suggestedTags = [] ∧
    (classifyWorkItem wEnhancement).confidence = 6 / 10 := by
  refine ⟨by decide, by decide, ?_⟩
  have h1 : (classifyWorkItem wEnhancement).suggestedTags = [] := by decide
  rw [classify_confidence, h1]
  norm_num [confidenceOf]

/-- C2 (amended): a work item with a Low keyword and no Critical or High
match gets suggestedPriority Low and the Low reasoning fragment, but the
Low tier pushes NO tag (only Critical and High do), so the result's tags
are exactly the area/type/state tags and the Low tier contributes nothing
to the confidence computation. -/
theorem low_tier_amended (w : WorkItem)
    (h : lowCond w = true ∧ criticalCond w = false ∧ highCond w = false) :
    (classifyWorkItem w).suggestedPriority = Priority.Low ∧
    tierOf w = ([], Priority.Low, "Low priority - non-critical enhancement. ") ∧
    (classifyWorkItem w).suggestedTags
      = (areaTags (haystack w)).1 ++ typeTags w.type ++ (stateTag w.state).1 ∧
    (classifyWorkItem w).confidence
      = confidenceOf ((areaTags (haystack w)).1 ++ typeTags w.type
          ++ (stateTag w.state).1).length := by
  obtain ⟨hlow, hcrit, hhigh⟩ := h
  have htier : tierOf w = ([], Priority.Low, "Low priority - non-critical enhancement. ") := by
    simp [tierOf, hcrit, hhigh, hlow]
  refine ⟨?_, htier, ?_, ?_⟩
  · rw [classify_suggestedPriority, htier]
  · rw [classify_suggestedTags, htier]
    simp
  · rw [classify_confidence, classify_suggestedTags, htier]
    simp

/-- C2 witness for the amended statement. -/
theorem low_tier_amended_witness :
    (lowCond wEnhancement = true ∧ criticalCond wEnhancement = false ∧
      highCond wEnhancement = false) ∧
    (classifyWorkItem wEnhancement).suggestedPriority = Priority.Low :=
  ⟨⟨by decide, by decide, by decide⟩,
    (low_tier_amended wEnhancement ⟨by decide, by decide, by decide⟩).1⟩

/-- C3: the confidence is exactly min(0.95, 0.6 + 0.1 × number of suggested
tags); it lies in [0, 0.95]; and the confidence formula is non-decreasing
in the tag count. -/
theorem confidence_formula_bounds_mono (w : WorkItem) (n m : Nat) (h : n ≤ m) :
    (classifyWorkItem w).confidence
      = confidenceOf (classifyWorkItem w).suggestedTags.length ∧
    0 ≤ (classifyWorkItem w).confidence ∧
    (classifyWorkItem w).confidence ≤ 95 / 100 ∧
    confidenceOf n ≤ confidenceOf m := by
  have hbounds : ∀ k : Nat, 0 ≤ confidenceOf k ∧ confidenceOf k ≤ 95 / 100 := by
    intro k
    unfold confidenceOf
    split
    · norm_num
    · rename_i hk
      rw [not_le] at hk
      have hk0 : (0:ℚ) ≤ (k:ℚ) := Nat.cast_nonneg k
      constructor <;> linarith
  refine ⟨classify_confidence w, ?_, ?_, ?_⟩
  · rw [classify_confidence]; exact (hbounds _).1
  · rw [classify_confidence]; exact (hbounds _).2
  · have hc : (n:ℚ) ≤ (m:ℚ) := Nat.cast_le.2 h
    unfold confidenceOf
    by_cases c1 : (95 / 100 : ℚ) ≤ 6 / 10 + (n : ℚ) * (1 / 10)
    · by_cases c2 : (95 / 100 : ℚ) ≤ 6 / 10 + (m : ℚ) * (1 / 10)
      · rw [if_pos c1, if_pos c2]
      · rw [if_pos c1, if_neg c2]
        linarith
    · by_cases c2 : (95 / 100 : ℚ) ≤ 6 / 10 + (m : ℚ) * (1 / 10)
      · rw [if_neg c1, if_pos c2]
        rw [not_le] at c1
        linarith
      · rw [if_neg c1, if_neg c2]
        linarith

/-- C3 witness. -/
theorem confidence_formula_bounds_mono_witness :
    (0 : Nat) ≤ 1 ∧
    ((classifyWorkItem wPlain).confidence
        = confidenceOf (classifyWorkItem wPlain).suggestedTags.length ∧
      0 ≤ (classifyWorkItem wPlain).confidence ∧
      (classifyWorkItem wPlain).confidence ≤ 95 / 100 ∧
      confidenceOf 0 ≤ confidenceOf 1) :=
  ⟨by decide, confidence_formula_bounds_mono wPlain 0 1 (by decide)⟩

/-- C4 counterexample: two work items agreeing on title, description, type
and state but differing in id produce different classification results (the
result embeds `workItemId := id`), refuting the claim that no field beyond
those four influences the result. -/
theorem classify_id_influences_result_cex :
    classifyWorkItem wTee1 ≠ classifyWorkItem wTee2 := by
  intro h
  have hid := congrArg ClassificationResult.workItemId h
  rw [classify_workItemId, classify_workItemId] at hid
  simp [wTee1, wTee2] at hid

/-- C4 (amended): classify is total and deterministic; every component of
the result except `workItemId` depends only on title, description, type and
state (assignedTo, tags, priority, sprint and url never influence it), and
`workItemId` is exactly the input's id. -/
theorem classify_depends_only_on_core_fields (w1 w2 : WorkItem)
    (ht : w1.title = w2.title) (hd : w1.description = w2.description)
    (hty : w1.type = w2.type) (hs : w1.state = w2.state) :
    (classifyWorkItem w1).suggestedTags = (classifyWorkItem w2).suggestedTags ∧
    (classifyWorkItem w1).suggestedPriority = (classifyWorkItem w2).suggestedPriority ∧
    (classifyWorkItem w1).confidence = (classifyWorkItem w2).confidence ∧
    (classifyWorkItem w1).reasoning = (classifyWorkItem w2).reasoning ∧
    (classifyWorkItem w1).workItemId = w1.id ∧
    (classifyWorkItem w2).workItemId = w2.id := by
  have hh : haystack w1 = haystack w2 := by
    unfold haystack; rw [ht, hd]
  have hcrit : criticalCond w1 = criticalCond w2 := by
    unfold criticalCond; rw [hh, hty]
  have hhigh : highCond w1 = highCond w2 := by
    unfold highCond; rw [hh]
  have hlow : lowCond w1 = lowCond w2 := by
    unfold lowCond; rw [hh]
  have htier : tierOf w1 = tierOf w2 := by
    unfold tierOf; rw [hcrit, hhigh, hlow]
  have htags : (classifyWorkItem w1).suggestedTags = (classifyWorkItem w2).suggestedTags := by
    rw [classify_suggestedTags, classify_suggestedTags, htier, hh, hty, hs]
  refine ⟨htags, ?_, ?_, ?_, classify_workItemId w1, classify_workItemId w2⟩
  · rw [classify_suggestedPriority, classify_suggestedPriority, htier]
  · rw [classify_confidence, classify_confidence, htags]
  · rw [classify_reasoning, classify_reasoning, htier, hh, hs]

/-- C4 witness for the amended statement: same core fields, different id,
assignedTo and url. -/
theorem classify_depends_only_on_core_fields_witness :
    (classifyWorkItem wApiAlice).suggestedTags = (classifyWorkItem wApiUrl).suggestedTags ∧
    (classifyWorkItem wApiAlice).workItemId = 1 :=
  ⟨(classify_depends_only_on_core_fields wApiAlice wApiUrl rfl rfl rfl rfl).1,
    (classify_depends_only_on_core_fields wApiAlice wApiUrl rfl rfl rfl rfl).2.2.2.2.1⟩

/-- C10: the confidence never drops below the zero-tag value 0.6, so it
lies in [0.6, 0.95] — a strictly tighter lower bound than the spec's
interval [0, 0.95]. -/
theorem confidence_lower_bound (w : WorkItem) :
    6 / 10 ≤ (classifyWorkItem w).confidence ∧
    (classifyWorkItem w).confidence ≤ 95 / 100 := by
  rw [classify_confidence]
  unfold confidenceOf
  split
  · norm_num
  · rename_i hk
    rw [not_le] at hk
    have hk0 : (0:ℚ) ≤ ((classifyWorkItem w).suggestedTags.length : ℚ) := Nat.cast_nonneg _
    constructor <;> linarith

/-! ## Claim theorems: sprint store -/

/-- C5: exporting any well-formed (i.e. reachable) store and importing the
snapshot into a fresh store reproduces identical `getAllSprints`,
`getWorkItems`, `getClassifications` and `getSprintStats` outputs for every
sprint name (round-trip law). -/
theorem export_import_roundtrip (svc : StateManagementService) (name : String) (h : WF svc) :
    getAllSprints (importState emptyService (some (exportState svc))).1 = getAllSprints svc ∧
    getWorkItems (importState emptyService (some (exportState svc))).1 name
      = getWorkItems svc name ∧
    getClassifications (importState emptyService (some (exportState svc))).1 name
      = getClassifications svc name ∧
    getSprintStats (importState emptyService (some (exportState svc))).1 name
      = getSprintStats svc name := by
  rw [importState_exportState svc emptyService h]
  exact ⟨rfl, rfl, rfl, rfl⟩

/-- C5 witness on a concrete two-sprint store. -/
theorem export_import_roundtrip_witness :
    WF svcTwo ∧
    getAllSprints (importState emptyService (some (exportState svcTwo))).1
      = getAllSprints svcTwo ∧
    getWorkItems (importState emptyService (some (exportState svcTwo))).1 "S1"
      = getWorkItems svcTwo "S1" :=
  ⟨by decide, (export_import_roundtrip svcTwo "S1" (by decide)).1,
    (export_import_roundtrip svcTwo "S1" (by decide)).2.1⟩

/-- C6: `storeClassifications` upserts results into the sprint's
classification map keyed by `workItemId` while leaving the sprint's
work-item map and `lastSyncTime` untouched (an unknown sprint is first
created empty, stamped with the creation time); `updateWorkItems` stamps
`lastSyncTime` with the call time on every call, item changes or not. -/
theorem record_frame_properties (svc : StateManagementService) (s : String)
    (results : List ClassificationResult) (items : List WorkItem) (now : Nat)
    (st : SprintState) :
    (mapGet svc.sprints s = some st →
      (storeClassifications svc s results now).sprints =
        mapSet svc.sprints s
          { st with classifications := putClassifications st.classifications results }) ∧
    (mapGet svc.sprints s = none →
      (storeClassifications svc s results now).sprints =
        mapSet svc.sprints s ⟨s, [], now, putClassifications [] results⟩) ∧
    (mapGet (updateWorkItems svc s items now).sprints s).map (·.lastSyncTime) = some now := by
  refine ⟨?_, ?_, ?_⟩
  · intro h
    simp [storeClassifications, getOrCreateSprintState, h]
  · intro h
    simp [storeClassifications, getOrCreateSprintState, h, mapSet_mapSet]
  · cases hm : mapGet svc.sprints s with
    | some st0 => simp [updateWorkItems, getOrCreateSprintState, hm, mapGet_mapSet_self]
    | none => simp [updateWorkItems, getOrCreateSprintState, hm, mapSet_mapSet,
        mapGet_mapSet_self]

/-- C6 witness: one classification stored into the existing sprint "S"
(work items and lastSyncTime untouched), and a sync with no items that
still moves lastSyncTime to the call time. -/
theorem record_frame_properties_witness :
    mapGet svcFix.sprints "S" = some stFix ∧
    (storeClassifications svcFix "S" [cFix] 99).sprints =
      mapSet svcFix.sprints "S"
        { stFix with classifications := putClassifications stFix.classifications [cFix] } ∧
    (mapGet (updateWorkItems svcFix "S" [] 123).sprints "S").map (·.lastSyncTime) = some 123 :=
  ⟨by decide,
    (record_frame_properties svcFix "S" [cFix] [] 99 stFix).1 (by decide),
    (record_frame_properties svcFix "S" [] [] 123 stFix).2.2⟩

/-- C7: looking up a sprint name the store does not hold returns the empty
list from `getWorkItems` and `getClassifications` and `none` from
`getSprintStats`; the three lookups are total functions from the store to
plain values — they return no modified store, so they cannot create the
sprint and `getAllSprints` is unaffected. -/
theorem unknown_sprint_lookups (svc : StateManagementService) (name : String)
    (h : name ∉ getAllSprints svc) :
    getWorkItems svc name = [] ∧ getClassifications svc name = [] ∧
    getSprintStats svc name = none := by
  have hm : mapGet svc.sprints name = none :=
    mapGet_eq_none_of_not_mem svc.sprints name (by simpa [getAllSprints] using h)
  simp [getWorkItems, getClassifications, getSprintStats, hm]

/-- C7 witness: sprint "B" is unknown to a store tracking only "A". -/
theorem unknown_sprint_lookups_witness :
    "B" ∉ getAllSprints svcA ∧
    (getWorkItems svcA "B" = [] ∧ getClassifications svcA "B" = [] ∧
      getSprintStats svcA "B" = none) :=
  ⟨by decide, unknown_sprint_lookups svcA "B" (by decide)⟩

/-- C8: syncing item list A and then item list B into the same fresh
sprint is last-write-wins — every id in B maps to B's copy, an id only in
A keeps A's copy, and `getWorkItems` has one entry per distinct id across
the two calls. -/
theorem record_last_write_wins (s : String) (A B : List WorkItem) (n1 n2 : Nat)
    (hA : (A.map (·.id)).Nodup) (hB : (B.map (·.id)).Nodup) :
    ∃ st, mapGet (updateWorkItems (updateWorkItems emptyService s A n1) s B n2).sprints s
        = some st ∧
      st.workItems = putItems (putItems [] A) B ∧
      (∀ b ∈ B, mapGet st.workItems b.id = some b) ∧
      (∀ a ∈ A, a.id ∉ B.map (·.id) → mapGet st.workItems a.id = some a) ∧
      (getWorkItems (updateWorkItems (updateWorkItems emptyService s A n1) s B n2) s).length
        = ((A ++ B).map (·.id)).dedup.length := by
  have h1 : updateWorkItems emptyService s A n1
      = ⟨[(s, ⟨s, putItems [] A, n1, []⟩)]⟩ := by
    simp [updateWorkItems, getOrCreateSprintState, emptyService, mapGet, mapSet]
  have h2 : updateWorkItems (updateWorkItems emptyService s A n1) s B n2
      = ⟨[(s, ⟨s, putItems (putItems [] A) B, n2, []⟩)]⟩ := by
    rw [h1]
    simp [updateWorkItems, getOrCreateSprintState, mapGet, mapSet]
  refine ⟨⟨s, putItems (putItems [] A) B, n2, []⟩, ?_, rfl, ?_, ?_, ?_⟩
  · rw [h2]; simp [mapGet]
  · intro b hb
    exact mapGet_putItems_self B _ hB b hb
  · intro a ha hnot
    rw [mapGet_putItems_of_not_mem B _ a.id hnot]
    exact mapGet_putItems_self A [] hA a ha
  · rw [h2]
    have hg : getWorkItems
        (⟨[(s, ⟨s, putItems (putItems [] A) B, n2, []⟩)]⟩ : StateManagementService) s
        = (putItems (putItems [] A) B).map (·.2) := by
      simp [getWorkItems, mapGet]
    rw [hg, List.length_map, ← putItems_append]
    exact length_putItems_nil (A ++ B)

/-- C8 witness: ids {1, 2} synced, then id 1 overwritten — B's copy wins
and the sprint ends with the two distinct ids. -/
theorem record_last_write_wins_witness :
    ((([wTee1, wTee2].map (·.id)).Nodup ∧ ([wOverwrite].map (·.id)).Nodup)) ∧
    (∃ st, mapGet (updateWorkItems (updateWorkItems emptyService "S" [wTee1, wTee2] 1)
          "S" [wOverwrite] 2).sprints "S" = some st ∧
      st.workItems = putItems (putItems [] [wTee1, wTee2]) [wOverwrite] ∧
      (∀ b ∈ [wOverwrite], mapGet st.workItems b.id = some b) ∧
      (∀ a ∈ [wTee1, wTee2], a.id ∉ [wOverwrite].map (·.id) →
        mapGet st.workItems a.id = some a) ∧
      (getWorkItems (updateWorkItems (updateWorkItems emptyService "S" [wTee1, wTee2] 1)
          "S" [wOverwrite] 2) "S").length
        = (([wTee1, wTee2] ++ [wOverwrite]).map (·.id)).dedup.length) :=
  ⟨⟨by decide, by decide⟩,
    record_last_write_wins "S" [wTee1, wTee2] [wOverwrite] 1 2 (by decide) (by decide)⟩

/-- C9: `importState` failure is non-atomic in an input-dependent way — a
string `JSON.parse` rejects aborts before `clear()`, leaving the store
untouched, while a parsed document whose `sprints` member is missing or
not an array aborts only after `clear()`, leaving the store empty (all
prior sprints lost). -/
theorem import_failure_nonatomic (svc : StateManagementService) (j : Json)
    (h : ∀ xs, jLookup j "sprints" ≠ some (Json.arr xs)) :
    importState svc none = (svc, some ImportError.parseFailure) ∧
    importState svc (some j) = (emptyService, some ImportError.invalidSprints) := by
  refine ⟨rfl, ?_⟩
  cases hj : jLookup j "sprints" with
  | none => simp [importState, hj, emptyService]
  | some v =>
    cases v with
    | arr a => exact absurd hj (h a)
    | null => simp [importState, hj, emptyService]
    | bool b => simp [importState, hj, emptyService]
    | num q => simp [importState, hj, emptyService]
    | str s2 => simp [importState, hj, emptyService]
    | obj fs => simp [importState, hj, emptyService]

/-- C9 witness: a populated store survives a parse failure untouched but is
emptied by a document whose `sprints` member is the number 3. -/
theorem import_failure_nonatomic_witness :
    importState svcA none = (svcA, some ImportError.parseFailure) ∧
    importState svcA (some badSprintsDoc) = (emptyService, some ImportError.invalidSprints) :=
  import_failure_nonatomic svcA badSprintsDoc
    (fun _ hxs => Json.noConfusion (Option.some.inj hxs))

end Agents
